import Mathlib

/-!
Shallow embedding of `MDAnalysis/core/topologyobjects.py`: the topology
entity classes (`TopologyObject` and its `Bond` / `Angle` / `Dihedral` /
`ImproperDihedral` subclasses), the columnar `TopologyGroup` container and
the `TopologyDict` classifier, together with proofs about equality,
hashing, deduplication, intersection, concatenation, membership and
type-based selection.

Machine reals, positions and the vectorized geometry routines are outside
the scope of the verified claims and are not modelled.  Python errors are
modelled by an explicit `Except` channel; operations the source cannot
fail on are modelled as total functions.
-/

namespace TopObjects

/-- The four topology element kinds; stands for the Python class tag
(`btype`) and, where equality keys use `self.__class__`, for the class
itself (the four classes and the four tags are in bijection). -/
inductive BType where
  | bond
  | angle
  | dihedral
  | improper
deriving DecidableEq

/-- The external particle container (`Universe`): an identity (Python
object identity, used by `==` between universes) and the per-particle
type labels (`atom.type` for each index). -/
structure Universe where
  uid : Nat
  types : List String
deriving DecidableEq

/-- `TopologyObject`: `_ix`, `_u`, the class tag, `_bondtype`, `_guessed`.
Index tuples are particle indices into the universe. -/
structure TopologyObject where
  ix : List Nat
  u : Universe
  btype : BType
  bondtype : Option (List String)
  guessed : Bool
deriving DecidableEq

/-- `TopologyObject.__init__`: stores the arguments; the source performs
no validation of any kind. -/
def mkTopologyObject (bt : BType) (ix : List Nat) (u : Universe)
    (ty : Option (List String)) (g : Bool) : TopologyObject :=
  { ix := ix, u := u, btype := bt, bondtype := ty, guessed := g }

/-- Constructing an entity through the error channel: `__init__` contains
no `raise`, so construction always returns normally. -/
def TopologyObject.construct (bt : BType) (ix : List Nat) (u : Universe)
    (ty : Option (List String)) (g : Bool) : Except String TopologyObject :=
  Except.ok (mkTopologyObject bt ix u ty g)

/-- The `type` property: the explicit `_bondtype` override if set, else
the tuple of the referenced particles' type labels (out-of-range indices
do not occur in the verified claims; they are given a default label). -/
def TopologyObject.type (o : TopologyObject) : List String :=
  match o.bondtype with
  | some t => t
  | none => o.ix.map (fun i => o.u.types.getD i "")

/-- `TopologyObject.__eq__`: same universe and index arrays equal
elementwise either way round.  Comparing arrays of different lengths is
unequal in this model. -/
def TopologyObject.beq (a b : TopologyObject) : Bool :=
  if a.u = b.u then decide (a.ix = b.ix) || decide (a.ix.reverse = b.ix)
  else false

/-- `sorted(indices)` as used by `_cmp_key`. -/
def sortedIx (l : List Nat) : List Nat :=
  List.insertionSort (· ≤ ·) l

/-- `TopologyObject._cmp_key`, the value `__hash__` hashes: the class
together with the sorted index tuple.  Hash equality is modelled as
equality of this key. -/
def TopologyObject.hashKey (o : TopologyObject) : BType × List Nat :=
  (o.btype, sortedIx o.ix)

theorem sortedIx_reverse (l : List Nat) : sortedIx l.reverse = sortedIx l := by
  unfold sortedIx
  exact List.eq_of_perm_of_sorted
    ((List.perm_insertionSort (· ≤ ·) l.reverse).trans
      ((List.reverse_perm l).trans (List.perm_insertionSort (· ≤ ·) l).symm))
    (List.sorted_insertionSort (· ≤ ·) l.reverse)
    (List.sorted_insertionSort (· ≤ ·) l)

/-- A concrete universe with particle types C, O, O, C (particles
0..3), as in the spec's worked bond scenario. -/
def u0 : Universe :=
  { uid := 0, types := ["C", "O", "O", "C"] }

/-- C1, counterexample.  The claim says equality is computed over the
*sorted* index tuple and that any two equal entities have equal hashes;
both parts fail on the code.  The angles over indices (1,2,3) and
(2,1,3) have equal sorted index tuples, equal universes, yet compare
unequal (`__eq__` only accepts identical or exactly reversed order); and
a `Dihedral` and an `ImproperDihedral` over the same indices compare
equal while their hash keys differ in the class component. -/
theorem eq_sorted_key_counterexample :
    (sortedIx [1, 2, 3] = sortedIx [2, 1, 3]
      ∧ (mkTopologyObject BType.angle [1, 2, 3] u0 none false).u
          = (mkTopologyObject BType.angle [2, 1, 3] u0 none false).u
      ∧ TopologyObject.beq (mkTopologyObject BType.angle [1, 2, 3] u0 none false)
          (mkTopologyObject BType.angle [2, 1, 3] u0 none false) = false)
    ∧ (TopologyObject.beq (mkTopologyObject BType.dihedral [0, 1, 2, 3] u0 none false)
          (mkTopologyObject BType.improper [0, 1, 2, 3] u0 none false) = true
      ∧ TopologyObject.hashKey (mkTopologyObject BType.dihedral [0, 1, 2, 3] u0 none false)
          ≠ TopologyObject.hashKey (mkTopologyObject BType.improper [0, 1, 2, 3] u0 none false)) := by
  refine ⟨⟨?_, ?_, ?_⟩, ?_, ?_⟩ <;> decide

/-- C1, amended.  Entity equality holds exactly when the universes are
equal and the index tuples are identical or exactly reversed — so it is
independent of the guessed flag and the type override, and every entity
equals its reversed-order copy — and the hash key is the class paired
with the sorted index tuple, so equal entities of the same kind have
equal hashes. -/
theorem topologyObject_eq_hash_amended :
    (∀ a b : TopologyObject,
      TopologyObject.beq a b = true ↔ (a.u = b.u ∧ (a.ix = b.ix ∨ a.ix.reverse = b.ix)))
    ∧ (∀ (bt bt' : BType) (ix : List Nat) (u : Universe)
        (ty ty' : Option (List String)) (g g' : Bool),
      TopologyObject.beq (mkTopologyObject bt ix u ty g)
        (mkTopologyObject bt' ix.reverse u ty' g') = true)
    ∧ (∀ a b : TopologyObject, TopologyObject.beq a b = true → a.btype = b.btype →
        TopologyObject.hashKey a = TopologyObject.hashKey b) := by
  have key : ∀ a b : TopologyObject,
      TopologyObject.beq a b = true ↔ (a.u = b.u ∧ (a.ix = b.ix ∨ a.ix.reverse = b.ix)) := by
    intro a b
    unfold TopologyObject.beq
    split
    · simp_all
    · simp_all
  refine ⟨key, ?_, ?_⟩
  · intro bt bt' ix u ty ty' g g'
    rw [key]
    exact ⟨rfl, Or.inr rfl⟩
  · intro a b hab hbt
    obtain ⟨-, hix⟩ := (key a b).mp hab
    unfold TopologyObject.hashKey
    rcases hix with h | h
    · rw [hbt, h]
    · rw [hbt, ← h, sortedIx_reverse]

/-- C1, witness: the amended theorem applied to two concrete reversed
bonds with differing guessed flags and type overrides. -/
theorem topologyObject_eq_hash_amended_witness :
    TopologyObject.beq (mkTopologyObject BType.bond [0, 1] u0 (some ["C", "O"]) false)
        (mkTopologyObject BType.bond [1, 0] u0 none true) = true
    ∧ TopologyObject.hashKey (mkTopologyObject BType.bond [0, 1] u0 (some ["C", "O"]) false)
        = TopologyObject.hashKey (mkTopologyObject BType.bond [1, 0] u0 none true) := by
  have h := topologyObject_eq_hash_amended.2.1 BType.bond BType.bond [0, 1] u0
    (some ["C", "O"]) none false true
  exact ⟨h, topologyObject_eq_hash_amended.2.2 _ _ h rfl⟩

/-- The Python error kinds raised by the embedded operations. -/
inductive PyError where
  | indexError
  | keyError
  | typeError
  | valueError
deriving DecidableEq

/-- The `guessed` argument of the `TopologyGroup` constructor: omitted,
a single broadcast boolean (`guessed is True or guessed is False`), or a
per-row array. -/
inductive GuessedArg where
  | omitted
  | single (b : Bool)
  | arr (l : List Bool)
deriving DecidableEq

/-- `TopologyGroup`: kind tag, N x K index matrix `_bix`, parallel
per-row `_bondtypes` and `_guessed` columns, and the owning universe.
`tyCol2d` records the numpy layout of `_bondtypes`: `true` for the
(N,1) single-column array the constructor's default produces, `false`
for a 1-D array (a user-supplied `type` argument, which the source
stores unreshaped, or the one-entry `np.array([bondtype])` built by
`__add__`).  `_guessed` is always reshaped to (N,1), so its layout
needs no field.  The layouts decide which `np.concatenate` calls in
`__add__` raise `ValueError`.  The vertical AtomGroup views `_ags` only
feed the geometry routines and are not modelled. -/
structure TopologyGroup where
  btype : BType
  bix : List (List Nat)
  bondtypes : List (Option (List String))
  tyCol2d : Bool
  guessed : List Bool
  u : Universe
deriving DecidableEq

/-- Modelled from the spec: the external row-deduplication primitive
`MDAnalysis.lib.util.unique_rows` is not under `src/`; per the spec it
"removes exact duplicate index rows from a matrix while returning the
indices of kept rows", keeping first occurrences.  The accumulator holds
the rows already kept; `i` is the index of the next input row. -/
def uniqueRowsAux : List (List Nat) → Nat → List (List Nat) → List (List Nat) × List Nat
  | [], _, _ => ([], [])
  | r :: rs, i, seen =>
    if r ∈ seen then uniqueRowsAux rs (i + 1) seen
    else
      (r :: (uniqueRowsAux rs (i + 1) (r :: seen)).1,
       i :: (uniqueRowsAux rs (i + 1) (r :: seen)).2)

/-- Modelled from the spec: `uniqueRows(matrix) -> (uniqueMatrix, keptRowIndices)`. -/
def unique_rows (m : List (List Nat)) : List (List Nat) × List Nat :=
  uniqueRowsAux m 0 []

/-- The body of `TopologyGroup.__init__` after the `btype` and the
effective type/guessed columns are settled: dedup non-empty matrices via
`unique_rows` and select the kept rows' type/guessed entries, or produce
the empty group (which discards the columns entirely: `_bondtypes`
becomes the 1-D `np.array([])`, so the empty group's layout flag is
`false`). -/
def buildTG (bondidx : List (List Nat)) (u : Universe) (bt : BType)
    (ty : List (Option (List String))) (ty2d : Bool) (gu : List Bool) : TopologyGroup :=
  if bondidx.length > 0 then
    { btype := bt
      bix := (unique_rows bondidx).1
      bondtypes := (unique_rows bondidx).2.map (fun i => ty.getD i none)
      tyCol2d := ty2d
      guessed := (unique_rows bondidx).2.map (fun i => gu.getD i true)
      u := u }
  else
    { btype := bt, bix := [], bondtypes := [], tyCol2d := false, guessed := [], u := u }

/-- The `btype` argument processing of `__init__`: an explicit kind is
one of the four allowed tags (so the `ValueError` branch for foreign
tags is unreachable here); with `btype` omitted the kind is inferred
from `len(bondidx[0])` — an `IndexError` on an empty matrix, a
`KeyError` for a row arity other than 2/3/4. -/
def inferBtype (bondidx : List (List Nat)) (btype : Option BType) : Except PyError BType :=
  match btype with
  | some b => Except.ok b
  | none =>
    match bondidx with
    | [] => Except.error PyError.indexError
    | r :: _ =>
      match r.length with
      | 2 => Except.ok BType.bond
      | 3 => Except.ok BType.angle
      | 4 => Except.ok BType.dihedral
      | _ => Except.error PyError.keyError

/-- The `guessed` argument processing of `__init__`: omitted means
all-guessed, a single boolean is broadcast, and an array is conformed
by `np.asarray(guessed, dtype=np.bool).reshape(len(bondidx), 1)` — a
`ValueError` whenever the array's length differs from the row count
(in particular for any non-empty array with an empty matrix). -/
def guessedCol (guessed : GuessedArg) (n : Nat) : Except PyError (List Bool) :=
  match guessed with
  | GuessedArg.omitted => Except.ok (List.replicate n true)
  | GuessedArg.single b => Except.ok (List.replicate n b)
  | GuessedArg.arr l =>
    if l.length = n then Except.ok l else Except.error PyError.valueError

/-- `TopologyGroup.__init__` with the `type` argument's numpy layout
made explicit (`ty2d`): the source keeps a supplied `type` array
unreshaped, so internal callers such as `__add__` pass columns of
either layout.  Argument processing happens in source order: `btype`
first, then the `type` default, then the `guessed` conformance. -/
def mkTopologyGroupWithShape (bondidx : List (List Nat)) (u : Universe)
    (btype : Option BType) (type : Option (List (Option (List String))))
    (ty2d : Bool) (guessed : GuessedArg) : Except PyError TopologyGroup :=
  match inferBtype bondidx btype with
  | Except.error e => Except.error e
  | Except.ok bt =>
    match guessedCol guessed bondidx.length with
    | Except.error e => Except.error e
    | Except.ok gu =>
      Except.ok (buildTG bondidx u bt
        (match type with
         | none => List.replicate bondidx.length none
         | some t => t)
        ty2d gu)

/-- `TopologyGroup.__init__` as called from outside: an omitted `type`
becomes the default (N,1) column of `None`; a supplied `type` array is
modelled in the plain 1-D layout (the source stores it unreshaped). -/
def mkTopologyGroup (bondidx : List (List Nat)) (u : Universe)
    (btype : Option BType) (type : Option (List (Option (List String))))
    (guessed : GuessedArg) : Except PyError TopologyGroup :=
  mkTopologyGroupWithShape bondidx u btype type type.isNone guessed

theorem mk_guessed_ok (bondidx : List (List Nat)) (u : Universe) (bt : BType)
    (ty : Option (List (Option (List String)))) (ty2d : Bool) (g : GuessedArg)
    (gu : List Bool) (hg : guessedCol g bondidx.length = Except.ok gu) :
    mkTopologyGroupWithShape bondidx u (some bt) ty ty2d g
      = Except.ok (buildTG bondidx u bt
          (match ty with
           | none => List.replicate bondidx.length none
           | some t => t)
          ty2d gu) := by
  unfold mkTopologyGroupWithShape
  rw [show inferBtype bondidx (some bt) = Except.ok bt from rfl, hg]

theorem mk_guessed_error (bondidx : List (List Nat)) (u : Universe) (bt : BType)
    (ty : Option (List (Option (List String)))) (ty2d : Bool) (g : GuessedArg)
    (e : PyError) (hg : guessedCol g bondidx.length = Except.error e) :
    mkTopologyGroupWithShape bondidx u (some bt) ty ty2d g = Except.error e := by
  unfold mkTopologyGroupWithShape
  rw [show inferBtype bondidx (some bt) = Except.ok bt from rfl, hg]

/-- `TopologyGroup.__len__`: the number of rows of `_bix`. -/
def TopologyGroup.numRows (tg : TopologyGroup) : Nat :=
  tg.bix.length

/-- `TopologyGroup.to_indices` / `indices`: the raw index matrix. -/
def TopologyGroup.toIndices (tg : TopologyGroup) : List (List Nat) :=
  tg.bix

/-- C2, counterexample.  The spec's scenario claims the rows (0,1) and
(1,0) are deduplicated into one row so the batch has length 2; the
dedup is exact-row only, the two orders are distinct rows, and the
constructed batch has length 3. -/
theorem bond_batch_dedup_counterexample :
    (mkTopologyGroup [[0, 1], [1, 0], [2, 3]] u0 none none GuessedArg.omitted).map
        TopologyGroup.numRows = Except.ok 3
    ∧ (Except.ok 3 : Except PyError Nat) ≠ Except.ok 2 := by
  constructor
  · rfl
  · intro h
    exact absurd (Except.ok.inj h) (by decide)

/-- C2, amended.  Constructing a bond batch from the raw index matrix
[(0,1),(1,0),(2,3)] (particle types C,O,O,C) removes no rows: (0,1) and
(1,0) are distinct exact rows, so the batch keeps all three rows in
order and has length 3. -/
theorem bond_batch_dedup_amended :
    (mkTopologyGroup [[0, 1], [1, 0], [2, 3]] u0 none none GuessedArg.omitted).map
        TopologyGroup.toIndices = Except.ok [[0, 1], [1, 0], [2, 3]]
    ∧ (mkTopologyGroup [[0, 1], [1, 0], [2, 3]] u0 none none GuessedArg.omitted).map
        TopologyGroup.numRows = Except.ok 3 := by
  exact ⟨rfl, rfl⟩

/-- C6, counterexample.  The claim says constructing an entity whose
index tuple length does not match the kind's arity fails with
`TypeError`; `TopologyObject.__init__` performs no arity check, so a
bond over three indices is constructed normally. -/
theorem entity_arity_counterexample :
    TopologyObject.construct BType.bond [0, 1, 2] u0 none false
        = Except.ok (mkTopologyObject BType.bond [0, 1, 2] u0 none false)
    ∧ (mkTopologyObject BType.bond [0, 1, 2] u0 none false).ix.length = 3
    ∧ (mkTopologyObject BType.bond [0, 1, 2] u0 none false).btype = BType.bond := by
  exact ⟨rfl, rfl, rfl⟩

/-- C6, amended.  Entity construction performs no arity validation: for
every kind and every index tuple, whatever its length, construction
returns normally with the supplied indices stored unchecked. -/
theorem entity_construct_total_amended (bt : BType) (ix : List Nat) (u : Universe)
    (ty : Option (List String)) (g : Bool) :
    TopologyObject.construct bt ix u ty g = Except.ok (mkTopologyObject bt ix u ty g)
    ∧ (mkTopologyObject bt ix u ty g).ix = ix
    ∧ (mkTopologyObject bt ix u ty g).btype = bt := by
  exact ⟨rfl, rfl, rfl⟩

/-- C7, counterexample.  The claim says empty-matrix construction
succeeds with no further checks whether or not an explicit kind is
supplied; without one, kind inference evaluates `len(bondidx[0])` on
the empty matrix and raises `IndexError` before the empty-batch branch
is reached, and even with an explicit kind a non-empty guessed array
raises `ValueError` at the `reshape(len(bondidx), 1)` conformance. -/
theorem empty_batch_inference_counterexample :
    mkTopologyGroup [] u0 none none GuessedArg.omitted = Except.error PyError.indexError
    ∧ mkTopologyGroup [] u0 (some BType.bond) none (GuessedArg.arr [true])
        = Except.error PyError.valueError := by
  exact ⟨rfl, rfl⟩

/-- C7, amended.  With an explicit kind supplied, constructing from the
empty index matrix succeeds whenever the guessed argument is omitted, a
single broadcast boolean, or an empty array — for every kind and type
argument, producing the valid empty batch of length 0 — and raises
`ValueError` for a non-empty guessed array (the reshape to (0,1)
fails); without an explicit kind it raises `IndexError` from reading
the first row during kind inference. -/
theorem empty_batch_explicit_kind_amended (u : Universe) (bt : BType)
    (type : Option (List (Option (List String)))) :
    (∀ b, mkTopologyGroup [] u (some bt) type (GuessedArg.single b)
      = Except.ok (TopologyGroup.mk bt [] [] false [] u))
    ∧ mkTopologyGroup [] u (some bt) type GuessedArg.omitted
      = Except.ok (TopologyGroup.mk bt [] [] false [] u)
    ∧ mkTopologyGroup [] u (some bt) type (GuessedArg.arr [])
      = Except.ok (TopologyGroup.mk bt [] [] false [] u)
    ∧ (∀ l, l ≠ [] → mkTopologyGroup [] u (some bt) type (GuessedArg.arr l)
      = Except.error PyError.valueError)
    ∧ (TopologyGroup.mk bt [] [] false [] u).numRows = 0 := by
  refine ⟨?_, ?_, ?_, ?_, rfl⟩
  · intro b
    cases type <;> rfl
  · cases type <;> rfl
  · cases type <;> rfl
  · intro l hl
    have hg : guessedCol (GuessedArg.arr l) ([] : List (List Nat)).length
        = Except.error PyError.valueError := by
      have hll : l.length ≠ 0 := fun hz => hl (List.length_eq_zero.mp hz)
      simp [guessedCol, hll]
    exact mk_guessed_error [] u bt type type.isNone (GuessedArg.arr l) PyError.valueError hg

theorem mem_uniqueRowsAux (rs : List (List Nat)) :
    ∀ (i : Nat) (seen : List (List Nat)) (r : List Nat),
      r ∈ (uniqueRowsAux rs i seen).1 ↔ (r ∈ rs ∧ r ∉ seen) := by
  induction rs with
  | nil => intro i seen r; simp [uniqueRowsAux]
  | cons x t ih =>
    intro i seen r
    by_cases hx : x ∈ seen
    · rw [uniqueRowsAux, if_pos hx, ih]
      constructor
      · rintro ⟨h1, h2⟩
        exact ⟨List.mem_cons_of_mem _ h1, h2⟩
      · rintro ⟨h1, h2⟩
        rcases List.mem_cons.mp h1 with h | h
        · exact absurd (h ▸ hx) h2
        · exact ⟨h, h2⟩
    · rw [uniqueRowsAux, if_neg hx]
      simp only [List.mem_cons, ih]
      constructor
      · rintro (rfl | ⟨h1, h2⟩)
        · exact ⟨Or.inl rfl, hx⟩
        · exact ⟨Or.inr h1, fun hs => h2 (Or.inr hs)⟩
      · rintro ⟨h1 | h1, h2⟩
        · exact Or.inl h1
        · by_cases hrx : r = x
          · exact Or.inl hrx
          · refine Or.inr ⟨h1, fun hs => ?_⟩
            rcases hs with h | h
            · exact hrx h
            · exact h2 h

theorem nodup_uniqueRowsAux (rs : List (List Nat)) :
    ∀ (i : Nat) (seen : List (List Nat)), (uniqueRowsAux rs i seen).1.Nodup := by
  induction rs with
  | nil => intro i seen; simp [uniqueRowsAux]
  | cons x t ih =>
    intro i seen
    by_cases hx : x ∈ seen
    · rw [uniqueRowsAux, if_pos hx]; exact ih _ _
    · rw [uniqueRowsAux, if_neg hx]
      refine List.nodup_cons.mpr ⟨fun hmem => ?_, ih _ _⟩
      exact ((mem_uniqueRowsAux t (i + 1) (x :: seen) x).mp hmem).2 (List.mem_cons_self x seen)

theorem uniqueRowsAux_len (rs : List (List Nat)) :
    ∀ (i : Nat) (seen : List (List Nat)),
      (uniqueRowsAux rs i seen).2.length = (uniqueRowsAux rs i seen).1.length := by
  induction rs with
  | nil => intro i seen; rfl
  | cons x t ih =>
    intro i seen
    by_cases hx : x ∈ seen
    · rw [uniqueRowsAux, if_pos hx]; exact ih _ _
    · rw [uniqueRowsAux, if_neg hx]
      simpa using ih (i + 1) (x :: seen)

theorem uniqueRowsAux_self (rs : List (List Nat)) :
    ∀ (i : Nat) (seen : List (List Nat)), rs.Nodup → (∀ r ∈ rs, r ∉ seen) →
      uniqueRowsAux rs i seen = (rs, List.range' i rs.length) := by
  induction rs with
  | nil => intro i seen _ _; rfl
  | cons x t ih =>
    intro i seen hnd hdis
    have hx : x ∉ seen := hdis x (List.mem_cons_self x t)
    have hnd' := List.nodup_cons.mp hnd
    have ht : uniqueRowsAux t (i + 1) (x :: seen) = (t, List.range' (i + 1) t.length) := by
      refine ih (i + 1) (x :: seen) hnd'.2 fun r hr hmem => ?_
      rcases List.mem_cons.mp hmem with h | h
      · exact hnd'.1 (h ▸ hr)
      · exact hdis r (List.mem_cons_of_mem _ hr) h
    rw [uniqueRowsAux, if_neg hx, ht]
    rfl

theorem uniqueRowsAux_first (rs : List (List Nat)) :
    ∀ (i : Nat) (seen : List (List Nat)) (p : Nat) (r : List Nat) (j : Nat),
      (uniqueRowsAux rs i seen).1.get? p = some r →
      (uniqueRowsAux rs i seen).2.get? p = some j →
      ∃ q, j = i + q ∧ rs.get? q = some r ∧ ∀ k < q, rs.get? k ≠ some r := by
  induction rs with
  | nil =>
    intro i seen p r j h1 _
    simp [uniqueRowsAux] at h1
  | cons x t ih =>
    intro i seen p r j h1 h2
    by_cases hx : x ∈ seen
    · rw [uniqueRowsAux, if_pos hx] at h1 h2
      obtain ⟨q, hq1, hq2, hq3⟩ := ih (i + 1) seen p r j h1 h2
      have hr : r ∉ seen :=
        ((mem_uniqueRowsAux t (i + 1) seen r).mp (List.get?_mem h1)).2
      refine ⟨q + 1, by omega, hq2, fun k hk => ?_⟩
      cases k with
      | zero =>
        intro hc
        exact hr ((Option.some.inj hc) ▸ hx)
      | succ k' => exact hq3 k' (by omega)
    · rw [uniqueRowsAux, if_neg hx] at h1 h2
      cases p with
      | zero =>
        obtain rfl : x = r := Option.some.inj h1
        obtain rfl : i = j := Option.some.inj h2
        exact ⟨0, rfl, rfl, fun k hk => absurd hk (by omega)⟩
      | succ p' =>
        simp only [List.get?_cons_succ] at h1 h2
        obtain ⟨q, hq1, hq2, hq3⟩ := ih (i + 1) (x :: seen) p' r j h1 h2
        have hr : r ∉ x :: seen :=
          ((mem_uniqueRowsAux t (i + 1) (x :: seen) r).mp (List.get?_mem h1)).2
        refine ⟨q + 1, by omega, hq2, fun k hk => ?_⟩
        cases k with
        | zero =>
          intro hc
          exact hr ((Option.some.inj hc) ▸ List.mem_cons_self x seen)
        | succ k' => exact hq3 k' (by omega)

theorem map_getD_range_self {α : Type} (l : List α) (d : α) :
    (List.range' 0 l.length).map (fun i => l.getD i d) = l := by
  apply List.ext_getElem?
  intro p
  rw [List.getElem?_map]
  by_cases hp : p < l.length
  · rw [List.getElem?_range' _ _ hp]
    simp only [Nat.zero_add, Nat.one_mul, Option.map_some']
    rw [List.getD_eq_getElem l d hp, List.getElem?_eq_getElem hp]
  · have h1 : (List.range' 0 l.length)[p]? = none :=
      List.getElem?_eq_none (by simpa using Nat.le_of_not_lt hp)
    have h2 : l[p]? = none := List.getElem?_eq_none (Nat.le_of_not_lt hp)
    rw [h1, h2]
    rfl

/-- C3.  Batch construction removes exact-duplicate index rows only:
the resulting matrix is duplicate-free, contains exactly the rows of the
input, and its length is the number of distinct rows; each kept row is
the first occurrence of its value and carries the type and guessed
entries of that occurrence; and re-running construction on the batch's
own `to_indices()` output (with its own columns) reproduces the batch
exactly. -/
theorem batch_dedup_exact_rows (bondidx : List (List Nat)) (u : Universe) (bt : BType)
    (ty : List (Option (List String))) (gu : List Bool)
    (hgu : gu.length = bondidx.length) :
    ∃ tg, mkTopologyGroup bondidx u (some bt) (some ty) (GuessedArg.arr gu) = Except.ok tg
  ∧ tg.bix.Nodup
      ∧ (∀ r, r ∈ tg.bix ↔ r ∈ bondidx)
      ∧ tg.numRows = bondidx.dedup.length
      ∧ (∀ p r, tg.bix.get? p = some r → ∃ j, bondidx.get? j = some r
          ∧ (∀ k < j, bondidx.get? k ≠ some r)
          ∧ tg.bondtypes.get? p = some (ty.getD j none)
          ∧ tg.guessed.get? p = some (gu.getD j true))
      ∧ (∀ tg2, mkTopologyGroup tg.toIndices u (some bt) (some tg.bondtypes)
          (GuessedArg.arr tg.guessed) = Except.ok tg2 → tg2 = tg) := by
  have hg : guessedCol (GuessedArg.arr gu) bondidx.length = Except.ok gu := by
    simp [guessedCol, hgu]
  have hnd : (buildTG bondidx u bt ty false gu).bix.Nodup := by
    unfold buildTG
    split
    · exact nodup_uniqueRowsAux bondidx 0 []
    · exact List.nodup_nil
  have hmem : ∀ r, r ∈ (buildTG bondidx u bt ty false gu).bix ↔ r ∈ bondidx := by
    intro r
    unfold buildTG
    split
    · simpa using mem_uniqueRowsAux bondidx 0 [] r
    · next h =>
      have hnil : bondidx = [] := List.length_eq_zero.mp (by omega)
      subst hnil
      simp
  refine ⟨buildTG bondidx u bt ty false gu,
    mk_guessed_ok bondidx u bt (some ty) false (GuessedArg.arr gu) gu hg,
    hnd, hmem, ?_, ?_, ?_⟩
  · have hperm : List.Perm (buildTG bondidx u bt ty false gu).bix bondidx.dedup :=
      (List.perm_ext_iff_of_nodup hnd (List.nodup_dedup _)).mpr
        fun a => (hmem a).trans List.mem_dedup.symm
    exact hperm.length_eq
  · intro p r hp
    by_cases hlen : bondidx.length > 0
    · have hp' : (unique_rows bondidx).1.get? p = some r := by
        unfold buildTG at hp
        rwa [if_pos hlen] at hp
      have hlt : p < (unique_rows bondidx).2.length := by
        have hl : (unique_rows bondidx).2.length = (unique_rows bondidx).1.length :=
          uniqueRowsAux_len bondidx 0 []
        rw [hl]
        exact (List.get?_eq_some.mp hp').1
      obtain ⟨j, hj⟩ : ∃ j, (unique_rows bondidx).2.get? p = some j :=
        ⟨(unique_rows bondidx).2.get ⟨p, hlt⟩, List.get?_eq_get hlt⟩
      obtain ⟨q, hq1, hq2, hq3⟩ := uniqueRowsAux_first bondidx 0 [] p r j hp' hj
      have hjq : j = q := by omega
      subst hjq
      refine ⟨j, hq2, hq3, ?_, ?_⟩
      · unfold buildTG
        rw [if_pos hlen]
        simp only [List.get?_map, hj, Option.map_some']
      · unfold buildTG
        rw [if_pos hlen]
        simp only [List.get?_map, hj, Option.map_some']
    · have hnil : bondidx = [] := List.length_eq_zero.mp (by omega)
      subst hnil
      simp [buildTG] at hp
  · intro tg2 h2
    have hglen : (buildTG bondidx u bt ty false gu).guessed.length
        = (buildTG bondidx u bt ty false gu).bix.length := by
      unfold buildTG
      split
      · simpa using uniqueRowsAux_len bondidx 0 []
      · rfl
    have hg2 : guessedCol (GuessedArg.arr (buildTG bondidx u bt ty false gu).guessed)
        (buildTG bondidx u bt ty false gu).toIndices.length
        = Except.ok (buildTG bondidx u bt ty false gu).guessed := by
      simp [guessedCol, TopologyGroup.toIndices, hglen]
    have h2w : mkTopologyGroupWithShape (buildTG bondidx u bt ty false gu).toIndices u
        (some bt) (some (buildTG bondidx u bt ty false gu).bondtypes) false
        (GuessedArg.arr (buildTG bondidx u bt ty false gu).guessed) = Except.ok tg2 := h2
    rw [mk_guessed_ok _ u bt _ false _ _ hg2] at h2w
    have h2' : tg2 = buildTG (buildTG bondidx u bt ty false gu).bix u bt
        (buildTG bondidx u bt ty false gu).bondtypes false
        (buildTG bondidx u bt ty false gu).guessed :=
      (Except.ok.inj h2w).symm
    rw [h2']
    by_cases hlen : bondidx.length > 0
    · have htg : buildTG bondidx u bt ty false gu =
          { btype := bt, bix := (unique_rows bondidx).1
            bondtypes := (unique_rows bondidx).2.map (fun i => ty.getD i none)
            tyCol2d := false
            guessed := (unique_rows bondidx).2.map (fun i => gu.getD i true)
            u := u } := by
        unfold buildTG
        rw [if_pos hlen]
      have hndu : (unique_rows bondidx).1.Nodup := nodup_uniqueRowsAux bondidx 0 []
      have hne : (unique_rows bondidx).1.length > 0 := by
        obtain ⟨x, t, hxt⟩ : ∃ x t, bondidx = x :: t := by
          cases bondidx with
          | nil => simp at hlen
          | cons x t => exact ⟨x, t, rfl⟩
        have hxm : x ∈ (unique_rows bondidx).1 := by
          rw [show unique_rows bondidx = uniqueRowsAux bondidx 0 [] from rfl,
            mem_uniqueRowsAux]
          exact ⟨hxt ▸ List.mem_cons_self x t, List.not_mem_nil x⟩
        exact List.length_pos.mpr (List.ne_nil_of_mem hxm)
      have hself : unique_rows (unique_rows bondidx).1
          = ((unique_rows bondidx).1, List.range' 0 (unique_rows bondidx).1.length) :=
        uniqueRowsAux_self (unique_rows bondidx).1 0 [] hndu (fun r _ => List.not_mem_nil r)
      have hlencol : ((unique_rows bondidx).2.map (fun i => ty.getD i none)).length
          = (unique_rows bondidx).1.length := by
        simpa using uniqueRowsAux_len bondidx 0 []
      have hlencol' : ((unique_rows bondidx).2.map (fun i => gu.getD i true)).length
          = (unique_rows bondidx).1.length := by
        simpa using uniqueRowsAux_len bondidx 0 []
      rw [htg]
      show buildTG (unique_rows bondidx).1 u bt
          ((unique_rows bondidx).2.map (fun i => ty.getD i none)) false
          ((unique_rows bondidx).2.map (fun i => gu.getD i true)) = _
      unfold buildTG
      rw [if_pos hne, hself]
      simp only [TopologyGroup.mk.injEq, true_and, and_true]
      refine ⟨?_, ?_⟩
      · rw [← hlencol]
        exact map_getD_range_self _ none
      · rw [← hlencol']
        exact map_getD_range_self _ true
    · have hnil : bondidx = [] := List.length_eq_zero.mp (by omega)
      subst hnil
      rfl

/-- C3, witness: the dedup theorem applied to a concrete matrix with one
exact duplicate row yields a batch of length 2. -/
theorem batch_dedup_exact_rows_witness :
    ∃ tg, mkTopologyGroup [[0, 1], [0, 1], [2, 3]] u0 (some BType.bond)
        (some [some ["C", "O"], none, none]) (GuessedArg.arr [false, true, true]) = Except.ok tg
      ∧ tg.numRows = 2 := by
  obtain ⟨tg, h1, _, _, h4, _, _⟩ := batch_dedup_exact_rows [[0, 1], [0, 1], [2, 3]] u0
    BType.bond [some ["C", "O"], none, none] [false, true, true] (by decide)
  refine ⟨tg, h1, ?_⟩
  rw [h4]
  decide

/-- C7, witness: the amended empty-construction theorem applied at a
concrete kind, discharging the broadcast-success case and the
non-empty-array failure case. -/
theorem empty_batch_explicit_kind_amended_witness :
    mkTopologyGroup [] u0 (some BType.angle) none (GuessedArg.single false)
      = Except.ok (TopologyGroup.mk BType.angle [] [] false [] u0)
    ∧ mkTopologyGroup [] u0 (some BType.angle) none (GuessedArg.arr [true, false])
      = Except.error PyError.valueError
    ∧ (TopologyGroup.mk BType.angle [] [] false [] u0).numRows = 0 :=
  ⟨(empty_batch_explicit_kind_amended u0 BType.angle none).1 false,
    (empty_batch_explicit_kind_amended u0 BType.angle none).2.2.2.1 [true, false] (by decide),
    (empty_batch_explicit_kind_amended u0 BType.angle none).2.2.2.2⟩

theorem mem_buildTG_bix (bondidx : List (List Nat)) (u : Universe) (bt : BType)
    (ty : List (Option (List String))) (ty2d : Bool) (gu : List Bool) (r : List Nat) :
    r ∈ (buildTG bondidx u bt ty ty2d gu).bix ↔ r ∈ bondidx := by
  unfold buildTG
  split
  · simpa using mem_uniqueRowsAux bondidx 0 [] r
  · next h =>
    have hnil : bondidx = [] := List.length_eq_zero.mp (by omega)
    subst hnil
    simp

/-- Boolean-mask indexing of a column (numpy `arr[mask]`); the masks
built by the operations below always have the column's length. -/
def maskSelect {α : Type} : List α → List Bool → List α
  | [], _ => []
  | _ :: _, [] => []
  | x :: xs, b :: bs => if b then x :: maskSelect xs bs else maskSelect xs bs

theorem maskSelect_map_eq_filter {α : Type} (l : List α) (p : α → Bool) :
    maskSelect l (l.map p) = l.filter p := by
  induction l with
  | nil => rfl
  | cons x xs ih =>
    cases h : p x <;> simp [maskSelect, List.filter_cons, h, ih]

/-- `TopologyGroup.__getitem__` with a boolean-array selector: slices the
matrix and both columns with the mask and rebuilds through the
constructor (whose exact-row dedup leaves the already-distinct selected
rows untouched). -/
def TopologyGroup.getMask (tg : TopologyGroup) (mask : List Bool) : TopologyGroup :=
  buildTG (maskSelect tg.bix mask) tg.u tg.btype
    (maskSelect tg.bondtypes mask) tg.tyCol2d (maskSelect tg.guessed mask)

/-- `TopologyGroup.atomgroup_intersection`: an empty group is returned
unchanged (issue 780); otherwise each row is kept if all (`strict`) or
any (default) of its index columns are members of the atom index set.
The source computes per-column membership arrays and folds `np.all` or
`np.any` across the columns; on the rectangular index matrix this equals
the per-row fold used here. -/
def TopologyGroup.atomgroup_intersection (tg : TopologyGroup) (atomIdx : List Nat)
    (strict : Bool) : TopologyGroup :=
  if tg.numRows = 0 then tg
  else
    tg.getMask (tg.bix.map (fun row =>
      if strict then row.all (fun i => decide (i ∈ atomIdx))
      else row.any (fun i => decide (i ∈ atomIdx))))

theorem any_of_all_of_ne_nil {α : Type} (l : List α) (p : α → Bool) (h : l ≠ [])
    (hall : l.all p = true) : l.any p = true := by
  cases l with
  | nil => exact absurd rfl h
  | cons x xs =>
    simp only [List.all_cons, Bool.and_eq_true] at hall
    simp only [List.any_cons, Bool.or_eq_true]
    exact Or.inl hall.1

/-- C4.  Intersection with a particle index set keeps, in strict mode,
exactly the rows all of whose index columns are members of the set and,
in non-strict mode, exactly the rows with at least one member column;
when every row has positive arity the strict result is row-wise a
subset of the non-strict result; and on an empty batch intersection
returns the batch itself unchanged. -/
theorem atomgroup_intersection_spec (tg : TopologyGroup) (S : List Nat) :
    (∀ r, r ∈ (tg.atomgroup_intersection S false).bix
      ↔ (r ∈ tg.bix ∧ r.any (fun i => decide (i ∈ S)) = true))
    ∧ (∀ r, r ∈ (tg.atomgroup_intersection S true).bix
      ↔ (r ∈ tg.bix ∧ r.all (fun i => decide (i ∈ S)) = true))
    ∧ ((∀ r ∈ tg.bix, r ≠ []) → ∀ r, r ∈ (tg.atomgroup_intersection S true).bix →
        r ∈ (tg.atomgroup_intersection S false).bix)
    ∧ (tg.numRows = 0 → tg.atomgroup_intersection S false = tg
        ∧ tg.atomgroup_intersection S true = tg) := by
  have key : ∀ strict : Bool, ∀ r, r ∈ (tg.atomgroup_intersection S strict).bix
      ↔ (r ∈ tg.bix ∧ (if strict then r.all (fun i => decide (i ∈ S))
          else r.any (fun i => decide (i ∈ S))) = true) := by
    intro strict r
    unfold TopologyGroup.atomgroup_intersection
    by_cases h0 : tg.numRows = 0
    · rw [if_pos h0]
      have hnil : tg.bix = [] := List.length_eq_zero.mp h0
      simp [hnil]
    · rw [if_neg h0]
      unfold TopologyGroup.getMask
      rw [mem_buildTG_bix, maskSelect_map_eq_filter, List.mem_filter]
  refine ⟨?_, ?_, ?_, ?_⟩
  · intro r
    simpa using key false r
  · intro r
    simpa using key true r
  · intro hne r hr
    obtain ⟨hmem, hall⟩ := (key true r).mp hr
    refine (key false r).mpr ⟨hmem, ?_⟩
    exact any_of_all_of_ne_nil r _ (hne r hmem) hall
  · intro h0
    constructor <;>
      · unfold TopologyGroup.atomgroup_intersection
        rw [if_pos h0]

/-- C4, witness: on the bond batch over rows (0,1) and (2,3), the strict
intersection with the set 0,1 contains the row (0,1), hence so does the
non-strict intersection (arities are positive). -/
theorem atomgroup_intersection_spec_witness :
    [0, 1] ∈ ((buildTG [[0, 1], [2, 3]] u0 BType.bond [none, none] true
      [true, true]).atomgroup_intersection [0, 1] false).bix := by
  have h := atomgroup_intersection_spec
    (buildTG [[0, 1], [2, 3]] u0 BType.bond [none, none] true [true, true]) [0, 1]
  refine h.2.2.1 (by decide) [0, 1] ?_
  exact (h.2.1 [0, 1]).mpr (by decide)

/-- The right operand of `TopologyGroup.__add__`: a single entity, a
group, or any other value (rejected by the isinstance check). -/
inductive Operand where
  | obj (o : TopologyObject)
  | grp (g : TopologyGroup)
  | other

/-- `TopologyGroup.__add__`.  Operand truthiness (`if not other`, `if
not self`) is non-emptiness: positive row count for a group, a
non-empty index tuple for an entity.  An empty right operand returns
`self` unchanged; an empty `self` rebuilds from the operand through the
constructor (a single entity's type becomes the 1-D one-entry
`np.array([other._bondtype])`); only when both operands are non-empty
are the kinds compared.  With matching kinds the matrices and columns
are concatenated and passed back through the constructor — for a single
entity this always raises `ValueError` while the keyword arguments are
evaluated, because `np.concatenate` mixes the (N,1)-shaped `_guessed`
column (and, for the default layout, the `_bondtypes` column) with the
1-D one-entry arrays; for two groups the `_guessed` columns are both
(N,1) but the `_bondtypes` concatenation raises `ValueError` when the
two layouts differ.  (An entity type override that is itself a tuple
makes `np.array([bondtype])` two-dimensional, adding further mismatched
shapes in the source; those are outside this model.) -/
def TopologyGroup.add (tg : TopologyGroup) (rhs : Operand) : Except PyError TopologyGroup :=
  match rhs with
  | Operand.other => Except.error PyError.typeError
  | Operand.obj o =>
    if o.ix.length = 0 then Except.ok tg
    else if tg.numRows = 0 then
      mkTopologyGroup [o.ix] o.u (some o.btype) (some [o.bondtype])
        (GuessedArg.single o.guessed)
    else if o.btype ≠ tg.btype then Except.error PyError.typeError
    else Except.error PyError.valueError
  | Operand.grp g =>
    if g.numRows = 0 then Except.ok tg
    else if tg.numRows = 0 then
      mkTopologyGroupWithShape g.bix g.u (some g.btype) (some g.bondtypes) g.tyCol2d
        (GuessedArg.arr g.guessed)
    else if g.btype ≠ tg.btype then Except.error PyError.typeError
    else if tg.tyCol2d ≠ g.tyCol2d then Except.error PyError.valueError
    else
      mkTopologyGroupWithShape (tg.bix ++ g.bix) tg.u (some tg.btype)
        (some (tg.bondtypes ++ g.bondtypes)) tg.tyCol2d
        (GuessedArg.arr (tg.guessed ++ g.guessed))

/-- C8, counterexample.  The claim requires a `TypeError` whenever the
kinds differ and the row-union otherwise; but adding an *empty* angle
group to a non-empty bond group returns the bond group unchanged (the
emptiness short-circuit precedes the kind check), and adding a
same-kind entity to a non-empty bond group raises `ValueError` from the
column concatenation instead of producing the union. -/
theorem concat_empty_kind_mismatch_counterexample :
    (buildTG [] u0 BType.angle [] false []).btype
      ≠ (buildTG [[0, 1]] u0 BType.bond [none] true [true]).btype
    ∧ TopologyGroup.add (buildTG [[0, 1]] u0 BType.bond [none] true [true])
        (Operand.grp (buildTG [] u0 BType.angle [] false []))
      = Except.ok (buildTG [[0, 1]] u0 BType.bond [none] true [true])
    ∧ TopologyGroup.add (buildTG [[0, 1]] u0 BType.bond [none] true [true])
        (Operand.obj (mkTopologyObject BType.bond [2, 3] u0 none true))
      = Except.error PyError.valueError := by
  exact ⟨by decide, rfl, rfl⟩

/-- C8, amended.  Concatenation raises `TypeError` when the right
operand is neither a batch nor an entity; an empty right operand
returns the left batch unchanged with no kind check; an empty left
batch is rebuilt from the right operand with no kind check; when both
operands are non-empty, a kind mismatch raises `TypeError`; with
matching kinds, batch + single entity always raises `ValueError` (the
(N,1)-shaped guessed column cannot be concatenated with the 1-D
one-entry array), batch + batch with differing type-column layouts
raises `ValueError`, and batch + batch with matching layouts yields the
row-union of the operands, deduplicated only by the constructor's
exact-row rule. -/
theorem concat_spec_amended (tg : TopologyGroup) :
    (tg.add Operand.other = Except.error PyError.typeError)
    ∧ (∀ g : TopologyGroup, g.numRows = 0 → tg.add (Operand.grp g) = Except.ok tg)
    ∧ (∀ o : TopologyObject, o.ix = [] → tg.add (Operand.obj o) = Except.ok tg)
    ∧ (∀ g : TopologyGroup, tg.numRows ≠ 0 → g.numRows ≠ 0 → g.btype ≠ tg.btype →
        tg.add (Operand.grp g) = Except.error PyError.typeError)
    ∧ (∀ o : TopologyObject, tg.numRows ≠ 0 → o.ix ≠ [] → o.btype ≠ tg.btype →
        tg.add (Operand.obj o) = Except.error PyError.typeError)
    ∧ (∀ o : TopologyObject, tg.numRows ≠ 0 → o.ix ≠ [] → o.btype = tg.btype →
        tg.add (Operand.obj o) = Except.error PyError.valueError)
    ∧ (∀ g : TopologyGroup, tg.numRows ≠ 0 → g.numRows ≠ 0 → g.btype = tg.btype →
        tg.tyCol2d ≠ g.tyCol2d → tg.add (Operand.grp g) = Except.error PyError.valueError)
    ∧ (∀ (o : TopologyObject) (tg2 : TopologyGroup), tg.numRows = 0 → o.ix ≠ [] →
        tg.add (Operand.obj o) = Except.ok tg2 → ∀ r, r ∈ tg2.bix ↔ r = o.ix)
    ∧ (∀ (g : TopologyGroup) (tg2 : TopologyGroup), tg.numRows = 0 → g.numRows ≠ 0 →
        tg.add (Operand.grp g) = Except.ok tg2 → ∀ r, r ∈ tg2.bix ↔ r ∈ g.bix)
    ∧ (∀ (g : TopologyGroup) (tg2 : TopologyGroup), tg.numRows ≠ 0 → g.numRows ≠ 0 →
        g.btype = tg.btype → tg.tyCol2d = g.tyCol2d → tg.add (Operand.grp g) = Except.ok tg2 →
        ∀ r, r ∈ tg2.bix ↔ (r ∈ tg.bix ∨ r ∈ g.bix))
    ∧ (∀ g : TopologyGroup, tg.numRows ≠ 0 → g.numRows ≠ 0 → g.btype = tg.btype →
        tg.tyCol2d = g.tyCol2d → tg.guessed.length + g.guessed.length
          = tg.bix.length + g.bix.length →
        ∃ tg2, tg.add (Operand.grp g) = Except.ok tg2) := by
  refine ⟨rfl, ?_, ?_, ?_, ?_, ?_, ?_, ?_, ?_, ?_, ?_⟩
  · intro g hg
    simp only [TopologyGroup.add, if_pos hg]
  · intro o ho
    simp only [TopologyGroup.add]
    rw [if_pos (show o.ix.length = 0 by simp [ho])]
  · intro g htg hg hbt
    simp only [TopologyGroup.add, if_neg hg, if_neg htg, if_pos hbt]
  · intro o htg ho hbt
    simp only [TopologyGroup.add,
      if_neg (fun hc => ho (List.length_eq_zero.mp hc)), if_neg htg, if_pos hbt]
  · intro o htg ho hbt
    simp only [TopologyGroup.add,
      if_neg (fun hc => ho (List.length_eq_zero.mp hc)), if_neg htg,
      if_neg (not_not_intro hbt)]
  · intro g htg hg hbt hsh
    simp only [TopologyGroup.add, if_neg hg, if_neg htg,
      if_neg (not_not_intro hbt), if_pos hsh]
  · intro o tg2 htg ho hok r
    simp only [TopologyGroup.add,
      if_neg (fun hc => ho (List.length_eq_zero.mp hc)), if_pos htg] at hok
    cases hgc : guessedCol (GuessedArg.single o.guessed) [o.ix].length with
    | error e =>
      rw [show mkTopologyGroup [o.ix] o.u (some o.btype) (some [o.bondtype])
            (GuessedArg.single o.guessed)
          = mkTopologyGroupWithShape [o.ix] o.u (some o.btype) (some [o.bondtype])
            false (GuessedArg.single o.guessed) from rfl,
        mk_guessed_error _ o.u o.btype _ false _ e hgc] at hok
      exact absurd hok (by simp)
    | ok gu =>
      rw [show mkTopologyGroup [o.ix] o.u (some o.btype) (some [o.bondtype])
            (GuessedArg.single o.guessed)
          = mkTopologyGroupWithShape [o.ix] o.u (some o.btype) (some [o.bondtype])
            false (GuessedArg.single o.guessed) from rfl,
        mk_guessed_ok _ o.u o.btype _ false _ gu hgc] at hok
      rw [← Except.ok.inj hok, mem_buildTG_bix]
      simp
  · intro g tg2 htg hg hok r
    simp only [TopologyGroup.add, if_neg hg, if_pos htg] at hok
    cases hgc : guessedCol (GuessedArg.arr g.guessed) g.bix.length with
    | error e =>
      rw [mk_guessed_error _ g.u g.btype _ g.tyCol2d _ e hgc] at hok
      exact absurd hok (by simp)
    | ok gu =>
      rw [mk_guessed_ok _ g.u g.btype _ g.tyCol2d _ gu hgc] at hok
      rw [← Except.ok.inj hok, mem_buildTG_bix]
  · intro g tg2 htg hg hbt hsh hok r
    simp only [TopologyGroup.add, if_neg hg, if_neg htg,
      if_neg (not_not_intro hbt), if_neg (not_not_intro hsh)] at hok
    cases hgc : guessedCol (GuessedArg.arr (tg.guessed ++ g.guessed))
        (tg.bix ++ g.bix).length with
    | error e =>
      rw [mk_guessed_error _ tg.u tg.btype _ tg.tyCol2d _ e hgc] at hok
      exact absurd hok (by simp)
    | ok gu =>
      rw [mk_guessed_ok _ tg.u tg.btype _ tg.tyCol2d _ gu hgc] at hok
      rw [← Except.ok.inj hok, mem_buildTG_bix, List.mem_append]
  · intro g htg hg hbt hsh hlen
    simp only [TopologyGroup.add, if_neg hg, if_neg htg,
      if_neg (not_not_intro hbt), if_neg (not_not_intro hsh)]
    have hgc : guessedCol (GuessedArg.arr (tg.guessed ++ g.guessed))
        (tg.bix ++ g.bix).length = Except.ok (tg.guessed ++ g.guessed) := by
      simp [guessedCol, List.length_append, hlen]
    rw [mk_guessed_ok _ tg.u tg.btype _ tg.tyCol2d _ _ hgc]
    exact ⟨_, rfl⟩

/-- C8, witness: for concrete non-empty bond and angle batches the
kind-mismatch `TypeError` fires, adding a same-kind entity raises the
shape `ValueError`, and a same-kind same-layout group pair yields the
row-union. -/
theorem concat_spec_amended_witness :
    TopologyGroup.add (buildTG [[0, 1]] u0 BType.bond [none] true [true])
      (Operand.grp (buildTG [[0, 1, 2]] u0 BType.angle [none] true [true]))
      = Except.error PyError.typeError
    ∧ TopologyGroup.add (buildTG [[0, 1]] u0 BType.bond [none] true [true])
      (Operand.obj (mkTopologyObject BType.bond [0, 1] u0 none false))
      = Except.error PyError.valueError
    ∧ ∃ tg2, TopologyGroup.add (buildTG [[0, 1]] u0 BType.bond [none] true [true])
      (Operand.grp (buildTG [[2, 3]] u0 BType.bond [none] true [true]))
      = Except.ok tg2 := by
  refine ⟨?_, ?_, ?_⟩
  · exact (concat_spec_amended _).2.2.2.1 _ (by decide) (by decide) (by decide)
  · exact (concat_spec_amended _).2.2.2.2.2.1 _ (by decide) (by decide) (by decide)
  · exact (concat_spec_amended _).2.2.2.2.2.2.2.2.2.2 _ (by decide) (by decide)
      (by decide) (by decide) (by decide)

/-- `TopologyGroup.__contains__`: the source evaluates
`item.indices in self._bix`, and numpy membership of an array in a
matrix is `(matrix == item.indices).any()` — every row is compared
elementwise against the aligned entries of the query and a single
matching element anywhere makes the test true. -/
def TopologyGroup.containsObj (tg : TopologyGroup) (o : TopologyObject) : Bool :=
  tg.bix.any (fun row => (row.zip o.ix).any (fun pr => decide (pr.1 = pr.2)))

/-- C9.  The claim (contains is an exact raw-index-row membership test)
states the evident intent — the method's docstring reads "Tests if this
TopologyGroup contains a bond" — but the numpy `in` semantics make it an
any-element test: the bond group over the single row (0,1) reports
containing a bond over (0,5), whose index tuple is not a row of the
matrix (its element 0 matches column 0 of the row). -/
theorem contains_numpy_any_bug :
    (buildTG [[0, 1]] u0 BType.bond [none] true [true]).containsObj
      (mkTopologyObject BType.bond [0, 5] u0 none false) = true
    ∧ (mkTopologyObject BType.bond [0, 5] u0 none false).ix
        ∉ (buildTG [[0, 1]] u0 BType.bond [none] true [true]).bix := by
  exact ⟨by decide, by decide⟩

/-- `TopologyGroup.__eq__`: `(self.indices == other.indices).all()` —
elementwise equality of the index matrices, modelled for shape-matched
comparisons (equal-shape matrices compare equal exactly when
identical). -/
def TopologyGroup.beq (a b : TopologyGroup) : Bool :=
  decide (a.bix = b.bix)

theorem mkTopologyGroup_some_bix (bi : List (List Nat)) (u : Universe) (bt : BType)
    (ty : Option (List (Option (List String)))) (g : GuessedArg) (tg : TopologyGroup)
    (h : mkTopologyGroup bi u (some bt) ty g = Except.ok tg) :
    tg.bix = if bi.length > 0 then (unique_rows bi).1 else [] := by
  have hw : mkTopologyGroupWithShape bi u (some bt) ty ty.isNone g = Except.ok tg := h
  cases hgc : guessedCol g bi.length with
  | error e =>
    rw [mk_guessed_error bi u bt ty ty.isNone g e hgc] at hw
    exact absurd hw (by simp)
  | ok gu =>
    rw [mk_guessed_ok bi u bt ty ty.isNone g gu hgc] at hw
    rw [← Except.ok.inj hw]
    by_cases hl : bi.length > 0 <;> simp [buildTG, hl]

/-- C10.  Two batches compare equal exactly when their index matrices
are element-wise equal in the same row order; the kind tag, the type
column, the guessed column and the owning universe play no part, so two
batches constructed from the same matrix with different kinds, type
columns, guessed flags and universes compare equal. -/
theorem topologyGroup_eq_indices_only :
    (∀ a b : TopologyGroup, TopologyGroup.beq a b = true ↔ a.bix = b.bix)
    ∧ (∀ (bi : List (List Nat)) (u1 u2 : Universe) (bt1 bt2 : BType)
        (ty1 ty2 : Option (List (Option (List String)))) (g1 g2 : GuessedArg)
        (tg1 tg2 : TopologyGroup),
      mkTopologyGroup bi u1 (some bt1) ty1 g1 = Except.ok tg1 →
      mkTopologyGroup bi u2 (some bt2) ty2 g2 = Except.ok tg2 →
      TopologyGroup.beq tg1 tg2 = true) := by
  constructor
  · intro a b
    simp [TopologyGroup.beq]
  · intro bi u1 u2 bt1 bt2 ty1 ty2 g1 g2 tg1 tg2 h1 h2
    have e1 := mkTopologyGroup_some_bix bi u1 bt1 ty1 g1 tg1 h1
    have e2 := mkTopologyGroup_some_bix bi u2 bt2 ty2 g2 tg2 h2
    simp [TopologyGroup.beq, e1, e2]

/-- C10, witness: two batches over the row (0,1) with different kinds,
universes and guessed flags compare equal. -/
theorem topologyGroup_eq_indices_only_witness :
    TopologyGroup.beq (buildTG [[0, 1]] u0 BType.bond [none] true [true])
      (buildTG [[0, 1]] (Universe.mk 1 []) BType.improper [none] true [false]) = true := by
  exact topologyGroup_eq_indices_only.2 [[0, 1]] u0 (Universe.mk 1 []) BType.bond
    BType.improper none none GuessedArg.omitted (GuessedArg.single false) _ _ rfl rfl

/-- Row `i` of a group materialized as an entity
(`TopologyGroup.__getitem__` with an integer): that row's index tuple
with the row's type and guessed entries and the group's kind class. -/
def TopologyGroup.memberAt (tg : TopologyGroup) (i : Nat) : TopologyObject :=
  { ix := tg.bix.getD i [], u := tg.u, btype := tg.btype
    bondtype := tg.bondtypes.getD i none, guessed := tg.guessed.getD i true }

/-- Iterating a group (`for b in topologygroup`) yields the row
entities in order through `__getitem__`. -/
def TopologyGroup.members (tg : TopologyGroup) : List TopologyObject :=
  (List.range tg.numRows).map tg.memberAt

/-- The classifier's backing dictionary: an association list from type
signature to the entities grouped under it, in key insertion order. -/
abbrev TDict := List (List String × List TopologyObject)

def lookupKey : TDict → List String → Option (List TopologyObject)
  | [], _ => none
  | (k, v) :: rest, x => if k = x then some v else lookupKey rest x

def appendAt : TDict → List String → List TopologyObject → TDict
  | [], _, _ => []
  | (k, v) :: rest, x, w => if k = x then (k, v ++ w) :: rest else (k, v) :: appendAt rest x w

/-- `self.dict[btype] += [b]`, with the `KeyError` fallback creating the
entry. -/
def dictAdd : TDict → List String → TopologyObject → TDict
  | [], k, b => [(k, [b])]
  | (k2, v) :: rest, k, b =>
    if k2 = k then (k2, v ++ [b]) :: rest else (k2, v) :: dictAdd rest k b

/-- `TopologyDict._removeDupes`: fold over the keys; a key whose
reversal is already present in the new dictionary is merged into that
entry, otherwise the key is kept.  The source iterates a Python dict;
the iteration order is modelled as insertion order, and the properties
proved below do not depend on the order. -/
def removeDupesAux : TDict → TDict → TDict
  | [], newd => newd
  | (k, v) :: rest, newd =>
    if (lookupKey newd k.reverse).isSome then removeDupesAux rest (appendAt newd k.reverse v)
    else removeDupesAux rest (newd ++ [(k, v)])

def removeDupes (d : TDict) : TDict :=
  removeDupesAux d []

/-- `TopologyDict`: the merged signature dictionary with the source
group's universe and kind. -/
structure TopologyDict where
  dict : TDict
  u : Universe
  toptype : BType

/-- `TopologyDict.__init__` from a `TopologyGroup`: group the member
entities by their `type` attribute, then `_removeDupes`. -/
def mkTopologyDict (tg : TopologyGroup) : TopologyDict :=
  { dict := removeDupes (tg.members.foldl (fun d b => dictAdd d b.type b) [])
    u := tg.u, toptype := tg.btype }

/-- `TopologyDict.__contains__`: the key or its reversal is present. -/
def TopologyDict.containsKey (td : TopologyDict) (k : List String) : Bool :=
  (lookupKey td.dict k).isSome || (lookupKey td.dict k.reverse).isSome

/-- The entity list selected by `TopologyDict.__getitem__` for a
present key: the key's own entry if present, else the reversed key's. -/
def TopologyDict.selection (td : TopologyDict) (k : List String) : List TopologyObject :=
  match lookupKey td.dict k with
  | some s => s
  | none => (lookupKey td.dict k.reverse).getD []

/-- `TopologyDict.__getitem__`: on a present key (either orientation),
stack the selected entities' index rows and construct a new group of
this dictionary's kind; otherwise raise `KeyError`. -/
def TopologyDict.getItem (td : TopologyDict) (k : List String) : Except PyError TopologyGroup :=
  if td.containsKey k then
    mkTopologyGroup ((td.selection k).map TopologyObject.ix) td.u (some td.toptype)
      none GuessedArg.omitted
  else Except.error PyError.keyError

theorem lookupKey_appendAt_isSome (d : TDict) (k : List String) (w : List TopologyObject)
    (x : List String) : (lookupKey (appendAt d k w) x).isSome = (lookupKey d x).isSome := by
  induction d with
  | nil => rfl
  | cons e rest ih =>
    obtain ⟨k2, v⟩ := e
    by_cases h : k2 = k
    · rw [appendAt, if_pos h]
      by_cases h2 : k2 = x <;> simp [lookupKey, h2]
    · rw [appendAt, if_neg h]
      by_cases h2 : k2 = x <;> simp [lookupKey, h2, ih]

theorem lookupKey_append_single (d : TDict) (k : List String) (v : List TopologyObject)
    (x : List String) : lookupKey (d ++ [(k, v)]) x
      = match lookupKey d x with
        | some w => some w
        | none => if k = x then some v else none := by
  induction d with
  | nil => rfl
  | cons e rest ih =>
    obtain ⟨k2, w⟩ := e
    by_cases h : k2 = x <;> simp [lookupKey, h, ih]

/-- No two distinct present keys are reversals of each other. -/
def NoRevPair (d : TDict) : Prop :=
  ∀ x, (lookupKey d x).isSome = true → (lookupKey d x.reverse).isSome = true → x.reverse = x

theorem noRevPair_removeDupesAux (todo : TDict) :
    ∀ newd, NoRevPair newd → NoRevPair (removeDupesAux todo newd) := by
  induction todo with
  | nil => intro newd h; exact h
  | cons e rest ih =>
    obtain ⟨k, v⟩ := e
    intro newd h
    by_cases hc : (lookupKey newd k.reverse).isSome = true
    · rw [removeDupesAux, if_pos hc]
      refine ih _ fun x h1 h2 => ?_
      rw [lookupKey_appendAt_isSome] at h1 h2
      exact h x h1 h2
    · rw [removeDupesAux, if_neg hc]
      refine ih _ fun x h1 h2 => ?_
      rw [lookupKey_append_single] at h1 h2
      cases hx : lookupKey newd x with
      | some w =>
        cases hxr : lookupKey newd x.reverse with
        | some w2 => exact h x (by simp [hx]) (by simp [hxr])
        | none =>
          rw [hxr] at h2
          have hk : k = x.reverse := by
            by_contra hkc
            rw [if_neg hkc] at h2
            simp at h2
          exact absurd (by rw [hk, List.reverse_reverse, hx]; rfl) hc
      | none =>
        rw [hx] at h1
        have hk : k = x := by
          by_contra hkc
          rw [if_neg hkc] at h1
          simp at h1
        cases hxr : lookupKey newd x.reverse with
        | some w2 =>
          exact absurd (by rw [hk, hxr]; rfl) hc
        | none =>
          rw [hxr] at h2
          have hk2 : k = x.reverse := by
            by_contra hkc
            rw [if_neg hkc] at h2
            simp at h2
          exact hk2 ▸ hk

theorem selection_symm (td : TopologyDict) (h : NoRevPair td.dict) (s : List String) :
    td.selection s = td.selection s.reverse := by
  unfold TopologyDict.selection
  rw [List.reverse_reverse]
  cases hx : lookupKey td.dict s with
  | some v =>
    cases hxr : lookupKey td.dict s.reverse with
    | some w =>
      have hpal : s.reverse = s := h s (by simp [hx]) (by simp [hxr])
      rw [hpal] at hxr
      rw [hx] at hxr
      rw [Option.some.inj hxr]
    | none =>
      simp [hx]
  | none =>
    cases hxr : lookupKey td.dict s.reverse with
    | some w => simp
    | none => simp

theorem getItem_symm (td : TopologyDict) (h : NoRevPair td.dict) (s : List String) :
    td.getItem s = td.getItem s.reverse := by
  have hcs : td.containsKey s = td.containsKey s.reverse := by
    unfold TopologyDict.containsKey
    rw [List.reverse_reverse]
    exact Bool.or_comm _ _
  unfold TopologyDict.getItem
  rw [← hcs, selection_symm td h s]

/-- C5.  For the classifier of any batch: at most one orientation of a
signature is ever present as a key; selecting a signature and selecting
its reversal return the same result; selection succeeds exactly when
the signature or its reversal is present and raises `KeyError` exactly
when neither orientation is present. -/
theorem topologyDict_select_spec (tg : TopologyGroup) :
    (∀ k, (lookupKey (mkTopologyDict tg).dict k).isSome = true →
        (lookupKey (mkTopologyDict tg).dict k.reverse).isSome = true → k.reverse = k)
    ∧ (∀ s, (mkTopologyDict tg).getItem s = (mkTopologyDict tg).getItem s.reverse)
    ∧ (∀ s, (mkTopologyDict tg).containsKey s = true →
        ∃ g, (mkTopologyDict tg).getItem s = Except.ok g)
    ∧ (∀ s, (mkTopologyDict tg).containsKey s = false →
        (mkTopologyDict tg).getItem s = Except.error PyError.keyError) := by
  have h : NoRevPair (mkTopologyDict tg).dict := by
    refine noRevPair_removeDupesAux _ [] fun x h1 _ => ?_
    simp [lookupKey] at h1
  refine ⟨h, fun s => getItem_symm _ h s, ?_, ?_⟩
  · intro s hc
    unfold TopologyDict.getItem
    rw [if_pos hc]
    exact ⟨_, rfl⟩
  · intro s hc
    unfold TopologyDict.getItem
    rw [if_neg (by simp [hc])]

/-- C5, witness: for the bond batch over rows (0,1) and (2,3) with
particle types C,O,O,C the signatures are (C,O) and (O,C); selecting
either orientation gives the same result, and an absent signature
raises `KeyError`. -/
theorem topologyDict_select_spec_witness :
    (mkTopologyDict (buildTG [[0, 1], [2, 3]] u0 BType.bond [none, none] true [true, true])).getItem
        ["C", "O"]
      = (mkTopologyDict (buildTG [[0, 1], [2, 3]] u0 BType.bond [none, none] true [true, true])).getItem
        ["O", "C"]
    ∧ (mkTopologyDict (buildTG [[0, 1], [2, 3]] u0 BType.bond [none, none] true [true, true])).getItem
        ["H", "H"]
      = Except.error PyError.keyError := by
  have h := topologyDict_select_spec (buildTG [[0, 1], [2, 3]] u0 BType.bond [none, none] true [true, true])
  exact ⟨h.2.1 ["C", "O"], h.2.2.2 ["H", "H"] (by decide)⟩

end TopObjects
